import Mathlib

/- Verification of the faceted aggregation engine of `app.py` (Maxi Care dashboard).

   The engine works over pandas DataFrames.  We embed a DataFrame as a `Dataset`:
   a set of column-presence flags (`Cols`, mirroring `"col" in df.columns`) plus an
   ordered list of rows (`Row`).  Cell values:
   - the identifier cell (`RO No.` / `RO Number`) is `Option String`; a null cell
     passed through Python `str()` prints as `"nan"` (`pyStr`);
   - the date cell (`Bill Date` / `Doc Date`, parsed by `pd.to_datetime` with
     `errors="coerce"`) is reduced to its month number, `Option Nat`
     (`none` = NaT/unparseable, exactly what `pd.notna` rejects);
   - the advisor and description cells are `Option String` (null = NaN);
   - numeric cells are rationals (the claims under study do not hinge on nulls in
     the numeric columns, and pandas `sum` skips NaN, i.e. treats it as 0).

   The labour and spares DataFrames have the same shape after this abstraction
   (they differ only in concrete column names), so functions that are duplicated
   in the source for the two datasets are embedded once when their bodies are
   textually identical up to column names, and separately otherwise. -/

def MONTH_NAMES : List (Nat × String) :=
  [(1, "Jan"), (2, "Feb"), (3, "Mar"), (4, "Apr"), (5, "May"), (6, "Jun"),
   (7, "Jul"), (8, "Aug"), (9, "Sep"), (10, "Oct"), (11, "Nov"), (12, "Dec")]

def FINANCIAL_YEAR_ORDER : List String :=
  ["Apr", "May", "Jun", "Jul", "Aug", "Sep", "Oct", "Nov", "Dec", "Jan", "Feb", "Mar"]

def DIVISION_MAPPING : List (Char × String) :=
  [('A', "HO"), ('B', "AMT"), ('C', "CITY"), ('D', "YAT"), ('G', "WAG"),
   ('L', "SHI"), ('M', "CHA"), ('R', "KOL"), ('U', "CHI")]

/- `get_division_from_ro`: `s = str(ro_no)`; if `len(s) >= 5` then
   `DIVISION_MAPPING.get(s[4].upper(), "Unknown")` else `"Unknown"`.
   The broad `except` can never fire after `str()` succeeds, so the embedding is
   the total function below. -/
def get_division_from_ro (ro_no : String) : String :=
  if 5 ≤ ro_no.length then
    (DIVISION_MAPPING.lookup ((ro_no.data.getD 4 ' ').toUpper)).getD "Unknown"
  else "Unknown"

/- `get_month_name`: `MONTH_NAMES.get(date.month, "")` when `pd.notna(date)`,
   else `""`. -/
def get_month_name (date : Option Nat) : String :=
  match date with
  | Option.none => ""
  | Option.some m => (MONTH_NAMES.lookup m).getD ""

/- Python `str()` applied to a possibly-null object cell: `str(nan) = "nan"`. -/
def pyStr (v : Option String) : String := v.getD "nan"

/- Column-presence flags of a loaded DataFrame (`"col" in df.columns`). -/
structure Cols where
  hasRO : Bool
  hasDate : Bool
  hasAdvisor : Bool
  hasDesc : Bool
  hasDis : Bool
  hasTot : Bool
  hasQty : Bool
  hasNdp : Bool
  hasSell : Bool
  hasMrp : Bool
deriving DecidableEq

/- One DataFrame row.  For labour rows the relevant numeric cells are `dis`
   (`Labour Basic Amount-DIS`) and `tot` (`Labour Total Amount`); for spares rows
   they are `qty` (`Final Qty`), `ndp` (`NDP PRIC*Qty`), `sell`
   (`Selling Price/Landed Cost (Total of Issued Qty)`) and `mrp` (`MRP (Per Qty)`). -/
structure Row where
  ro : Option String
  date : Option Nat
  advisor : Option String
  desc : Option String
  dis : ℚ
  tot : ℚ
  qty : ℚ
  ndp : ℚ
  sell : ℚ
  mrp : ℚ
deriving DecidableEq

structure Dataset where
  cols : Cols
  rows : List Row
deriving DecidableEq

def divisionOfRow (r : Row) : String := get_division_from_ro (pyStr r.ro)

/- The facet-filter block repeated verbatim in `get_labour_summary`,
   `get_spares_summary`, `get_labour_data`, `get_spares_data`,
   `export_labour_data` and `export_spares_data`:

     if division and "RO No." in filtered.columns:
         filtered = filtered[filtered["RO No."].apply(lambda x: get_division_from_ro(str(x)) == division)]
     if month and "Bill Date" in filtered.columns:
         filtered = filtered[filtered["Bill Date"].apply(lambda x: get_month_name(x) == month)]
     if advisor and "Service Advisor" in filtered.columns:
         filtered = filtered[filtered["Service Advisor"].apply(lambda x: str(x).strip() == advisor)]

   A facet argument of `Option.none` models a falsy (absent/empty) query value. -/
def divStep (c : Cols) (division : Option String) (rows : List Row) : List Row :=
  match division with
  | Option.none => rows
  | Option.some v => if c.hasRO then rows.filter (fun r => divisionOfRow r == v) else rows

def monthStep (c : Cols) (month : Option String) (rows : List Row) : List Row :=
  match month with
  | Option.none => rows
  | Option.some v => if c.hasDate then rows.filter (fun r => get_month_name r.date == v) else rows

def advisorStep (c : Cols) (advisor : Option String) (rows : List Row) : List Row :=
  match advisor with
  | Option.none => rows
  | Option.some v =>
      if c.hasAdvisor then rows.filter (fun r => (pyStr r.advisor).trim == v) else rows

def applyFilters (d : Dataset) (division month advisor : Option String) : Dataset :=
  ⟨d.cols, advisorStep d.cols advisor (monthStep d.cols month (divStep d.cols division d.rows))⟩

lemma mem_divStep {c : Cols} {dv : Option String} {rows : List Row} {r : Row} :
    r ∈ divStep c dv rows ↔
      r ∈ rows ∧ (∀ v, dv = Option.some v → c.hasRO = true → divisionOfRow r = v) := by
  cases dv with
  | none => simp [divStep]
  | some v =>
      by_cases h : c.hasRO <;>
        simp [divStep, h, List.mem_filter]

lemma mem_monthStep {c : Cols} {mo : Option String} {rows : List Row} {r : Row} :
    r ∈ monthStep c mo rows ↔
      r ∈ rows ∧ (∀ v, mo = Option.some v → c.hasDate = true → get_month_name r.date = v) := by
  cases mo with
  | none => simp [monthStep]
  | some v =>
      by_cases h : c.hasDate <;>
        simp [monthStep, h, List.mem_filter]

lemma mem_advisorStep {c : Cols} {ad : Option String} {rows : List Row} {r : Row} :
    r ∈ advisorStep c ad rows ↔
      r ∈ rows ∧ (∀ v, ad = Option.some v → c.hasAdvisor = true → (pyStr r.advisor).trim = v) := by
  cases ad with
  | none => simp [advisorStep]
  | some v =>
      by_cases h : c.hasAdvisor <;>
        simp [advisorStep, h, List.mem_filter]

lemma mem_applyFilters {d : Dataset} {dv mo ad : Option String} {r : Row} :
    r ∈ (applyFilters d dv mo ad).rows ↔
      r ∈ d.rows ∧
      (∀ v, dv = Option.some v → d.cols.hasRO = true → divisionOfRow r = v) ∧
      (∀ v, mo = Option.some v → d.cols.hasDate = true → get_month_name r.date = v) ∧
      (∀ v, ad = Option.some v → d.cols.hasAdvisor = true → (pyStr r.advisor).trim = v) := by
  show r ∈ advisorStep _ _ _ ↔ _
  rw [mem_advisorStep, mem_monthStep, mem_divStep]
  tauto

lemma applyFilters_cols (d : Dataset) (dv mo ad : Option String) :
    (applyFilters d dv mo ad).cols = d.cols := rfl

lemma applyFilters_rows_subset {d : Dataset} {dv mo ad : Option String} {r : Row}
    (h : r ∈ (applyFilters d dv mo ad).rows) : r ∈ d.rows :=
  (mem_applyFilters.mp h).1

lemma applyFilters_nil {d : Dataset} (h : d.rows = []) (dv mo ad : Option String) :
    (applyFilters d dv mo ad).rows = [] := by
  rcases hr : (applyFilters d dv mo ad).rows with _ | ⟨r, t⟩
  · rfl
  · have : r ∈ (applyFilters d dv mo ad).rows := by rw [hr]; exact List.mem_cons_self r t
    have := applyFilters_rows_subset this
    rw [h] at this
    cases this

/-- C4: facet filtering is conjunctive: a record survives iff (no division
constraint OR the division derived from its identifier field equals the selected
division) AND (no month constraint OR the fiscal month of its date field equals
the selected month) AND (no advisor constraint OR its advisor field stripped of
surrounding whitespace equals the selected advisor); a constrained predicate whose
source column is absent is silently skipped (acts as no constraint) rather than
raising or dropping rows. -/
theorem facet_filter_conjunctive (d : Dataset) (dv mo ad : Option String) (r : Row) :
    r ∈ (applyFilters d dv mo ad).rows ↔
      r ∈ d.rows ∧
      (∀ v, dv = Option.some v → d.cols.hasRO = true → divisionOfRow r = v) ∧
      (∀ v, mo = Option.some v → d.cols.hasDate = true → get_month_name r.date = v) ∧
      (∀ v, ad = Option.some v → d.cols.hasAdvisor = true → (pyStr r.advisor).trim = v) :=
  mem_applyFilters

/-- C3: division resolution is a pure total function of the identifier string:
identifiers shorter than 5 characters resolve to Unknown; otherwise the 5th
character (1-indexed) is uppercased and looked up in the fixed mapping table
(A:HO, B:AMT, C:CITY, D:YAT, G:WAG, L:SHI, M:CHA, R:KOL, U:CHI), unmapped
letters yielding Unknown, with the result independent of the case of the input
letter; the embedding is a total Lean function, so it never raises. -/
theorem division_resolution_spec :
    (∀ s : String, s.length < 5 → get_division_from_ro s = "Unknown") ∧
    (∀ s : String, 5 ≤ s.length →
      get_division_from_ro s =
        (DIVISION_MAPPING.lookup ((s.data.getD 4 ' ').toUpper)).getD "Unknown") ∧
    (∀ s t : String, 5 ≤ s.length → 5 ≤ t.length →
      (s.data.getD 4 ' ').toUpper = (t.data.getD 4 ' ').toUpper →
      get_division_from_ro s = get_division_from_ro t) ∧
    (∀ s : String, 5 ≤ s.length →
      DIVISION_MAPPING.lookup ((s.data.getD 4 ' ').toUpper) = Option.none →
      get_division_from_ro s = "Unknown") := by
  refine ⟨?_, ?_, ?_, ?_⟩
  · intro s h
    unfold get_division_from_ro
    rw [if_neg (by omega)]
  · intro s h
    unfold get_division_from_ro
    rw [if_pos h]
  · intro s t hs ht hc
    unfold get_division_from_ro
    rw [if_pos hs, if_pos ht, hc]
  · intro s hs hl
    unfold get_division_from_ro
    rw [if_pos hs, hl]
    rfl

theorem division_resolution_spec_witness :
    get_division_from_ro "AB" = "Unknown" ∧
    get_division_from_ro "AB1Xc" = "CITY" ∧
    get_division_from_ro "AB1XZ" = "Unknown" :=
  ⟨division_resolution_spec.1 "AB" (by decide),
   (division_resolution_spec.2.1 "AB1Xc" (by decide)).trans (by decide),
   division_resolution_spec.2.2.2 "AB1XZ" (by decide) (by decide)⟩

/- Lexicographic code-point comparison on strings, the order Python's `sorted`
   uses on `str` values.  (Lean's built-in `String.le` does not reduce in the
   kernel, so the comparison is spelled out over the character lists.) -/
def charsLe : List Char → List Char → Bool
  | [], _ => true
  | _ :: _, [] => false
  | a :: as, b :: bs =>
      if a.toNat < b.toNat then true
      else if b.toNat < a.toNat then false
      else charsLe as bs

def strLe (a b : String) : Bool := charsLe a.data b.data

lemma charsLe_total : ∀ a b : List Char, charsLe a b = true ∨ charsLe b a = true := by
  intro a
  induction a with
  | nil => intro b; left; rfl
  | cons x xs ih =>
      intro b
      cases b with
      | nil => right; rfl
      | cons y ys =>
          rcases Nat.lt_trichotomy x.toNat y.toNat with h | h | h
          · left; simp [charsLe, h]
          · have h1 : ¬ x.toNat < y.toNat := by omega
            have h2 : ¬ y.toNat < x.toNat := by omega
            simpa [charsLe, h1, h2] using ih ys
          · right; simp [charsLe, h]

lemma charsLe_trans :
    ∀ a b c : List Char, charsLe a b = true → charsLe b c = true → charsLe a c = true := by
  intro a
  induction a with
  | nil => intro b c _ _; rfl
  | cons x xs ih =>
      intro b c hab hbc
      cases b with
      | nil => simp [charsLe] at hab
      | cons y ys =>
          cases c with
          | nil => simp [charsLe] at hbc
          | cons z zs =>
              simp only [charsLe] at hab hbc ⊢
              by_cases hxy : x.toNat < y.toNat
              · by_cases hyz : y.toNat < z.toNat
                · rw [if_pos (by omega)]
                · by_cases hzy : z.toNat < y.toNat
                  · rw [if_neg hyz, if_pos hzy] at hbc; simp at hbc
                  · rw [if_pos (by omega)]
              · by_cases hyx : y.toNat < x.toNat
                · rw [if_neg hxy, if_pos hyx] at hab; simp at hab
                · rw [if_neg hxy, if_neg hyx] at hab
                  by_cases hyz : y.toNat < z.toNat
                  · rw [if_pos (by omega)]
                  · by_cases hzy : z.toNat < y.toNat
                    · rw [if_neg hyz, if_pos hzy] at hbc; simp at hbc
                    · rw [if_neg hyz, if_neg hzy] at hbc
                      rw [if_neg (by omega), if_neg (by omega)]
                      exact ih ys zs hab hbc

instance : IsTotal String (fun a b => strLe a b = true) :=
  ⟨fun a b => charsLe_total a.data b.data⟩

instance : IsTrans String (fun a b => strLe a b = true) :=
  ⟨fun a b c => charsLe_trans a.data b.data c.data⟩

/- Python's `sorted(...)` over a list of strings. -/
def sortedStrings (l : List String) : List String :=
  List.insertionSort (fun a b => strLe a b = true) l

lemma mem_sortedStrings {l : List String} {a : String} : a ∈ sortedStrings l ↔ a ∈ l :=
  (List.perm_insertionSort _ l).mem_iff

lemma nodup_sortedStrings {l : List String} (h : l.Nodup) : (sortedStrings l).Nodup :=
  ((List.perm_insertionSort _ l).nodup_iff).mpr h

lemma sorted_sortedStrings (l : List String) :
    (sortedStrings l).Sorted (fun a b => strLe a b = true) :=
  List.sorted_insertionSort _ l

/- `get_labour_divisions` / `get_spares_divisions`: guard on an empty frame and
   on the identifier column, then the sorted set of non-Unknown divisions of the
   distinct non-null identifier values.  The two source functions differ only in
   the identifier column name, so they share one embedding body. -/
def get_labour_divisions (d : Dataset) : List String :=
  if d.rows.isEmpty || !d.cols.hasRO then []
  else
    sortedStrings ((((d.rows.filterMap Row.ro).dedup.map get_division_from_ro).filter
      (fun s => s != "Unknown")).dedup)

def get_spares_divisions (d : Dataset) : List String :=
  if d.rows.isEmpty || !d.cols.hasRO then []
  else
    sortedStrings ((((d.rows.filterMap Row.ro).dedup.map get_division_from_ro).filter
      (fun s => s != "Unknown")).dedup)

/- `get_labour_months_for_division` / `get_spares_months_for_division`: guard on
   empty frame, identifier column and date column; optionally pre-filter by
   division; collect the distinct truthy month names of the distinct non-null
   dates, and keep `FINANCIAL_YEAR_ORDER` filtered to that set. -/
def get_labour_months_for_division (d : Dataset) (division : Option String) : List String :=
  if d.rows.isEmpty || !d.cols.hasRO || !d.cols.hasDate then []
  else
    match division with
    | Option.none =>
        let months := (((d.rows.filterMap Row.date).dedup.map
          (fun dt => get_month_name (Option.some dt))).filter (fun x => x != ""))
        FINANCIAL_YEAR_ORDER.filter (fun m => months.contains m)
    | Option.some v =>
        let f := d.rows.filter (fun r => divisionOfRow r == v)
        let months := (((f.filterMap Row.date).dedup.map
          (fun dt => get_month_name (Option.some dt))).filter (fun x => x != ""))
        FINANCIAL_YEAR_ORDER.filter (fun m => months.contains m)

def get_spares_months_for_division (d : Dataset) (division : Option String) : List String :=
  if d.rows.isEmpty || !d.cols.hasRO || !d.cols.hasDate then []
  else
    match division with
    | Option.none =>
        let months := (((d.rows.filterMap Row.date).dedup.map
          (fun dt => get_month_name (Option.some dt))).filter (fun x => x != ""))
        FINANCIAL_YEAR_ORDER.filter (fun m => months.contains m)
    | Option.some v =>
        let f := d.rows.filter (fun r => divisionOfRow r == v)
        let months := (((f.filterMap Row.date).dedup.map
          (fun dt => get_month_name (Option.some dt))).filter (fun x => x != ""))
        FINANCIAL_YEAR_ORDER.filter (fun m => months.contains m)

lemma divStep_nil (c : Cols) (dv : Option String) : divStep c dv [] = [] := by
  cases dv with
  | none => rfl
  | some v => by_cases h : c.hasRO <;> simp [divStep, h]

lemma months_core (rows : List Row) :
    FINANCIAL_YEAR_ORDER.filter (fun m =>
      (((rows.filterMap Row.date).dedup.map
        (fun dt => get_month_name (Option.some dt))).filter (fun x => x != "")).contains m) =
    FINANCIAL_YEAR_ORDER.filter (fun m => rows.any (fun r => get_month_name r.date == m)) := by
  refine List.filter_congr ?_
  intro m hm
  have hmne : m ≠ "" := by
    have hall : ∀ x ∈ FINANCIAL_YEAR_ORDER, x ≠ "" := by decide
    exact hall m hm
  rw [Bool.eq_iff_iff]
  have h1 : (((rows.filterMap Row.date).dedup.map
      (fun dt => get_month_name (Option.some dt))).filter (fun x => x != "")).contains m = true ↔
      m ∈ (((rows.filterMap Row.date).dedup.map
        (fun dt => get_month_name (Option.some dt))).filter (fun x => x != "")) :=
    List.elem_iff
  rw [h1, List.any_eq_true]
  simp only [List.mem_filter, List.mem_map, List.mem_dedup, List.mem_filterMap, bne_iff_ne,
    ne_eq, beq_iff_eq]
  constructor
  · rintro ⟨⟨dt, ⟨r, hr, hdt⟩, hf⟩, -⟩
    exact ⟨r, hr, by rw [hdt]; exact hf⟩
  · rintro ⟨r, hr, hgm⟩
    rcases hdt : r.date with _ | dt
    · rw [hdt] at hgm
      simp [get_month_name] at hgm
      exact absurd hgm.symm hmne
    · rw [hdt] at hgm
      exact ⟨⟨dt, ⟨r, hr, hdt⟩, hgm⟩, fun h => hmne h⟩

lemma labour_months_char (d : Dataset) (dv : Option String)
    (hro : d.cols.hasRO = true) (hdate : d.cols.hasDate = true) :
    get_labour_months_for_division d dv =
      FINANCIAL_YEAR_ORDER.filter (fun m =>
        (divStep d.cols dv d.rows).any (fun r => get_month_name r.date == m)) := by
  unfold get_labour_months_for_division
  rcases hd : d.rows with _ | ⟨r0, rest⟩
  · rw [divStep_nil]
    simp
  · have hne : ¬ (((r0 :: rest).isEmpty || !d.cols.hasRO || !d.cols.hasDate) = true) := by
      simp [hro, hdate]
    rw [if_neg hne]
    cases dv with
    | none =>
        simpa using months_core (r0 :: rest)
    | some v =>
        have : divStep d.cols (Option.some v) (r0 :: rest) =
            (r0 :: rest).filter (fun r => divisionOfRow r == v) := by
          simp [divStep, hro]
        rw [this]
        simpa using months_core ((r0 :: rest).filter (fun r => divisionOfRow r == v))

/-- C5 (amended: requires the identifier column to be present, see the
counterexample below): for every dataset with identifier and date columns and any
optional division constraint, the months listing equals the fixed fiscal cycle
Apr..Mar filtered to the months realised by some record of the (optionally
division-filtered) rows — hence it is the set of distinct fiscal months of the
records' non-null parseable dates, always a subsequence of the fiscal cycle,
never insertion/calendar/alphabetical order; the spares listing behaves
identically. -/
theorem months_listing_fiscal_order (d : Dataset) (division : Option String)
    (hro : d.cols.hasRO = true) (hdate : d.cols.hasDate = true) :
    get_labour_months_for_division d division =
      FINANCIAL_YEAR_ORDER.filter (fun m =>
        (divStep d.cols division d.rows).any (fun r => get_month_name r.date == m)) ∧
    (get_labour_months_for_division d division).Sublist FINANCIAL_YEAR_ORDER ∧
    get_spares_months_for_division d division = get_labour_months_for_division d division := by
  refine ⟨labour_months_char d division hro hdate, ?_, rfl⟩
  rw [labour_months_char d division hro hdate]
  exact List.filter_sublist _

def monthsC5wit : Dataset :=
  ⟨⟨true, true, true, true, true, true, true, true, true, true⟩,
   [⟨Option.some "AB1XC", Option.some 10, Option.some "S", Option.some "D", 0, 0, 0, 0, 0, 0⟩,
    ⟨Option.some "AB1XC", Option.some 4, Option.some "S", Option.some "D", 0, 0, 0, 0, 0, 0⟩,
    ⟨Option.some "AB1XB", Option.some 10, Option.some "S", Option.some "D", 0, 0, 0, 0, 0, 0⟩]⟩

theorem months_listing_fiscal_order_witness :
    (get_labour_months_for_division monthsC5wit Option.none =
      FINANCIAL_YEAR_ORDER.filter (fun m =>
        (divStep monthsC5wit.cols Option.none monthsC5wit.rows).any
          (fun r => get_month_name r.date == m))) ∧
    get_labour_months_for_division monthsC5wit Option.none = ["Apr", "Oct"] :=
  ⟨(months_listing_fiscal_order monthsC5wit Option.none rfl rfl).1, by decide⟩

def monthsC5cex : Dataset :=
  ⟨⟨false, true, true, true, true, true, true, true, true, true⟩,
   [⟨Option.some "AB1XC", Option.some 4, Option.some "S", Option.some "D", 0, 0, 0, 0, 0, 0⟩]⟩

/-- C5 counterexample: a dataset whose identifier column is absent but whose date
column holds a valid April date; the months listing is `[]` although the distinct
fiscal months of the records' non-null parseable dates are `["Apr"]`, refuting
the claim as universally stated. -/
theorem months_listing_counterexample :
    get_labour_months_for_division monthsC5cex Option.none = [] ∧
    monthsC5cex.rows.map (fun r => get_month_name r.date) = ["Apr"] := by
  constructor
  · decide
  · decide

/-- C10: the labour (and spares) months listing returns the empty sequence
whenever the identifier column is absent from the dataset, regardless of the
division argument — even when the date column is present with valid dates. -/
theorem months_require_identifier (d : Dataset) (division : Option String)
    (h : d.cols.hasRO = false) :
    get_labour_months_for_division d division = [] ∧
    get_spares_months_for_division d division = [] := by
  unfold get_labour_months_for_division get_spares_months_for_division
  rw [h]
  simp

def monthsC10ex : Dataset :=
  ⟨⟨false, true, true, true, true, true, true, true, true, true⟩,
   [⟨Option.some "AB1XC", Option.some 10, Option.some "S", Option.some "D", 0, 0, 0, 0, 0, 0⟩]⟩

theorem months_require_identifier_witness :
    (get_labour_months_for_division monthsC10ex Option.none = [] ∧
     get_spares_months_for_division monthsC10ex Option.none = []) ∧
    monthsC10ex.cols.hasDate = true ∧
    monthsC10ex.rows.map (fun r => get_month_name r.date) = ["Oct"] :=
  ⟨months_require_identifier monthsC10ex Option.none rfl, rfl, by decide⟩

/- pandas `df.groupby(col, as_index=False)` with the default `sort=True`: the
   result has one row per distinct non-null key, ordered by sorted key (not by
   first appearance); each group aggregates the rows whose key cell equals the
   group key. -/
def groupKeys (rows : List Row) : List String :=
  sortedStrings ((rows.filterMap Row.desc).dedup)

lemma mem_groupKeys {rows : List Row} {k : String} :
    k ∈ groupKeys rows ↔ ∃ r ∈ rows, r.desc = Option.some k := by
  unfold groupKeys
  rw [mem_sortedStrings, List.mem_dedup, List.mem_filterMap]

lemma nodup_groupKeys (rows : List Row) : (groupKeys rows).Nodup :=
  nodup_sortedStrings (List.nodup_dedup _)

lemma sorted_groupKeys (rows : List Row) :
    (groupKeys rows).Sorted (fun a b => strLe a b = true) :=
  sorted_sortedStrings _

/- One row of the `/api/labour/data` grouped breakdown.  `count` is the pandas
   `"count"` aggregation of the `RO No.` column when that column exists (it counts
   the group's non-null identifiers), else the `_rowcount_` sum (the group size). -/
structure LabourRow where
  desc : String
  count : ℕ
  dis : ℚ
  tot : ℚ
deriving DecidableEq

def labourGroupRow (c : Cols) (rows : List Row) (k : String) : LabourRow :=
  let g := rows.filter (fun r => r.desc == Option.some k)
  { desc := k
    count := if c.hasRO then (g.filter (fun r => r.ro.isSome)).length else g.length
    dis := if c.hasDis then (g.map Row.dis).sum else 0
    tot := if c.hasTot then (g.map Row.tot).sum else 0 }

/- `get_labour_data`: empty-frame guard, facet filter, empty guard, dimension
   column guard, then the grouped aggregation. -/
def get_labour_data (d : Dataset) (dv mo ad : Option String) : List LabourRow :=
  if d.rows.isEmpty then []
  else if (applyFilters d dv mo ad).rows.isEmpty then []
  else if d.cols.hasDesc then
    (groupKeys (applyFilters d dv mo ad).rows).map
      (labourGroupRow d.cols (applyFilters d dv mo ad).rows)
  else []

/- One row of the `/api/spares/data` grouped breakdown.  `MRP (Per Qty)` is
   aggregated with `"mean"` and `MRP_Total` is `qty-sum * mrp-mean`. -/
structure SparesRow where
  part_desc : String
  final_qty : ℚ
  ndp_price_qty : ℚ
  selling_price_total : ℚ
  mrp_total : ℚ
deriving DecidableEq

def sparesGroupRow (c : Cols) (rows : List Row) (k : String) : SparesRow :=
  let g := rows.filter (fun r => r.desc == Option.some k)
  let qtyV : ℚ := if c.hasQty then (g.map Row.qty).sum else 0
  let mrpV : ℚ := if c.hasMrp then (g.map Row.mrp).sum / (g.length : ℚ) else 0
  { part_desc := k
    final_qty := qtyV
    ndp_price_qty := if c.hasNdp then (g.map Row.ndp).sum else 0
    selling_price_total := if c.hasSell then (g.map Row.sell).sum else 0
    mrp_total := qtyV * mrpV }

/- `get_spares_data`: the `agg_map` dict gains an entry only per present numeric
   column; when all four of `Final Qty`, `NDP PRIC*Qty`, the selling-price column
   and `MRP (Per Qty)` are absent, `groupby("Part Desc", as_index=False).agg({})`
   is called with an empty dict, which errors (no per-column results to
   concatenate), so the broad `except` returns `[]`.  Hence the grouped rows are
   produced only when at least one of the four numeric columns exists. -/
def get_spares_data (d : Dataset) (dv mo ad : Option String) : List SparesRow :=
  if d.rows.isEmpty then []
  else if (applyFilters d dv mo ad).rows.isEmpty then []
  else if d.cols.hasDesc then
    if d.cols.hasQty || d.cols.hasNdp || d.cols.hasSell || d.cols.hasMrp then
      (groupKeys (applyFilters d dv mo ad).rows).map
        (sparesGroupRow d.cols (applyFilters d dv mo ad).rows)
    else []
  else []

lemma isEmpty_true_eq_nil {α : Type} {l : List α} (h : l.isEmpty = true) : l = [] := by
  cases l with
  | nil => rfl
  | cons a t => simp at h

/-- C6: in the spares grouped breakdown, every group's reported MRP total equals
(sum of the group's quantities) × (arithmetic mean of the group's per-unit MRP
values), not a sum of per-record products, while the quantity, NDP and
selling-price fields are plain sums over the group. -/
theorem spares_group_mrp_mean (d : Dataset) (dv mo ad : Option String)
    (hq : d.cols.hasQty = true) (hm : d.cols.hasMrp = true)
    (hn : d.cols.hasNdp = true) (hs : d.cols.hasSell = true) :
    ∀ row ∈ get_spares_data d dv mo ad,
      ∃ g : List Row,
        g = (applyFilters d dv mo ad).rows.filter (fun r => r.desc == Option.some row.part_desc) ∧
        g ≠ [] ∧
        row.final_qty = (g.map Row.qty).sum ∧
        row.ndp_price_qty = (g.map Row.ndp).sum ∧
        row.selling_price_total = (g.map Row.sell).sum ∧
        row.mrp_total = (g.map Row.qty).sum * ((g.map Row.mrp).sum / (g.length : ℚ)) := by
  intro row hrow
  unfold get_spares_data at hrow
  split_ifs at hrow with h1 h2 h3 h4
  · simp at hrow
  · simp at hrow
  · obtain ⟨k, hk, hrk⟩ := List.mem_map.mp hrow
    obtain ⟨r, hr, hdesc⟩ := mem_groupKeys.mp hk
    have hdesc' : row.part_desc = k := by rw [← hrk]; rfl
    refine ⟨(applyFilters d dv mo ad).rows.filter (fun r => r.desc == Option.some k),
      by rw [hdesc'], ?_, ?_, ?_, ?_, ?_⟩
    · intro hnil
      have : r ∈ (applyFilters d dv mo ad).rows.filter (fun r => r.desc == Option.some k) :=
        List.mem_filter.mpr ⟨hr, by simp [hdesc]⟩
      rw [hnil] at this
      cases this
    · rw [← hrk]; simp [sparesGroupRow, hq]
    · rw [← hrk]; simp [sparesGroupRow, hn]
    · rw [← hrk]; simp [sparesGroupRow, hs]
    · rw [← hrk]; simp [sparesGroupRow, hq, hm]
  · simp at hrow
  · simp at hrow

def sparesC6wit : Dataset :=
  ⟨⟨true, true, true, true, true, true, true, true, true, true⟩,
   [⟨Option.some "AB1XC", Option.some 4, Option.some "S", Option.some "P", 0, 0, 1, 1, 2, 10⟩,
    ⟨Option.some "AB1XC", Option.some 4, Option.some "S", Option.some "P", 0, 0, 2, 1, 3, 20⟩]⟩

theorem spares_group_mrp_mean_witness :
    (∀ row ∈ get_spares_data sparesC6wit Option.none Option.none Option.none,
      ∃ g : List Row,
        g = (applyFilters sparesC6wit Option.none Option.none Option.none).rows.filter
              (fun r => r.desc == Option.some row.part_desc) ∧
        g ≠ [] ∧
        row.final_qty = (g.map Row.qty).sum ∧
        row.ndp_price_qty = (g.map Row.ndp).sum ∧
        row.selling_price_total = (g.map Row.sell).sum ∧
        row.mrp_total = (g.map Row.qty).sum * ((g.map Row.mrp).sum / (g.length : ℚ))) ∧
    (get_spares_data sparesC6wit Option.none Option.none Option.none).map
      (fun r => r.mrp_total) = [45] :=
  ⟨spares_group_mrp_mean sparesC6wit Option.none Option.none Option.none rfl rfl rfl rfl,
   by
    have h : (get_spares_data sparesC6wit Option.none Option.none Option.none).map
        (fun r => r.mrp_total) =
        [(sparesGroupRow sparesC6wit.cols sparesC6wit.rows "P").mrp_total] := rfl
    rw [h]
    have hfil : sparesC6wit.rows.filter (fun r => r.desc == Option.some "P") =
        sparesC6wit.rows := rfl
    simp only [sparesGroupRow, show sparesC6wit.cols.hasMrp = true from rfl,
      show sparesC6wit.cols.hasQty = true from rfl, if_true, hfil]
    have hq : sparesC6wit.rows.map Row.qty = [1, 2] := rfl
    have hm : sparesC6wit.rows.map Row.mrp = [10, 20] := rfl
    have hlen : sparesC6wit.rows.length = 2 := rfl
    rw [hq, hm, hlen]
    norm_num [List.sum_cons, List.sum_nil]⟩

lemma labour_data_desc_map (d : Dataset) (dv mo ad : Option String)
    (hdesc : d.cols.hasDesc = true) :
    (get_labour_data d dv mo ad).map (fun r => r.desc) =
      if d.rows.isEmpty then []
      else if (applyFilters d dv mo ad).rows.isEmpty then []
      else groupKeys (applyFilters d dv mo ad).rows := by
  unfold get_labour_data
  simp only [hdesc]
  split_ifs with h1 h2
  · rfl
  · rfl
  · rw [List.map_map]
    have : ((fun r => r.desc) ∘ labourGroupRow d.cols (applyFilters d dv mo ad).rows) =
        fun k => k := by
      funext k; rfl
    rw [this, List.map_id']

lemma spares_data_desc_map (d : Dataset) (dv mo ad : Option String)
    (hdesc : d.cols.hasDesc = true) :
    (get_spares_data d dv mo ad).map (fun r => r.part_desc) =
      if d.rows.isEmpty then []
      else if (applyFilters d dv mo ad).rows.isEmpty then []
      else if d.cols.hasQty || d.cols.hasNdp || d.cols.hasSell || d.cols.hasMrp then
        groupKeys (applyFilters d dv mo ad).rows
      else [] := by
  unfold get_spares_data
  simp only [hdesc]
  split_ifs with h1 h2 h3
  · rfl
  · rfl
  · rw [List.map_map]
    have : ((fun r => r.part_desc) ∘ sparesGroupRow d.cols (applyFilters d dv mo ad).rows) =
        fun k => k := by
      funext k; rfl
    rw [this, List.map_id']
  · rfl

lemma spares_data_no_numeric (d : Dataset) (dv mo ad : Option String)
    (hnum : (d.cols.hasQty || d.cols.hasNdp || d.cols.hasSell || d.cols.hasMrp) = false) :
    get_spares_data d dv mo ad = [] := by
  unfold get_spares_data
  split_ifs with h1 h2 h3 h4
  · rfl
  · rfl
  · simp [hnum] at h4
  · rfl
  · rfl

/-- C8 (amended: pandas `groupby` defaults to `sort=True`, so the grouped
breakdown's row order is the ascending lexicographic (code-point) order of the
distinct dimension values, NOT the first-seen discovery order the claim
states): the sequence of dimension values of the grouped breakdown is sorted,
duplicate-free, and consists exactly of the dimension values occurring in the
filtered dataset; the spares breakdown uses the same key sequence whenever at
least one of its four numeric columns is present, and is empty (the empty
aggregation-dict error path) when all four are absent. -/
theorem group_rows_sorted (d : Dataset) (dv mo ad : Option String)
    (hdesc : d.cols.hasDesc = true) :
    ((get_labour_data d dv mo ad).map (fun r => r.desc)).Sorted (fun a b => strLe a b = true) ∧
    ((get_labour_data d dv mo ad).map (fun r => r.desc)).Nodup ∧
    (∀ k : String, k ∈ (get_labour_data d dv mo ad).map (fun r => r.desc) ↔
      ∃ r ∈ (applyFilters d dv mo ad).rows, r.desc = Option.some k) ∧
    ((d.cols.hasQty || d.cols.hasNdp || d.cols.hasSell || d.cols.hasMrp) = true →
      (get_spares_data d dv mo ad).map (fun r => r.part_desc) =
        (get_labour_data d dv mo ad).map (fun r => r.desc)) ∧
    ((d.cols.hasQty || d.cols.hasNdp || d.cols.hasSell || d.cols.hasMrp) = false →
      get_spares_data d dv mo ad = []) := by
  refine ⟨?_, ?_, ?_, ?_, spares_data_no_numeric d dv mo ad⟩
  · rw [labour_data_desc_map d dv mo ad hdesc]
    split_ifs with h1 h2
    · exact List.sorted_nil
    · exact List.sorted_nil
    · exact sorted_groupKeys _
  · rw [labour_data_desc_map d dv mo ad hdesc]
    split_ifs with h1 h2
    · exact List.nodup_nil
    · exact List.nodup_nil
    · exact nodup_groupKeys _
  · intro k
    rw [labour_data_desc_map d dv mo ad hdesc]
    split_ifs with h1 h2
    · rw [applyFilters_nil (isEmpty_true_eq_nil h1) dv mo ad]
      simp
    · rw [isEmpty_true_eq_nil h2]
      simp
    · exact mem_groupKeys
  · intro hnum
    rw [labour_data_desc_map d dv mo ad hdesc, spares_data_desc_map d dv mo ad hdesc]
    split_ifs with h1 h2
    · rfl
    · rfl
    · rfl

def groupOrderC8cex : Dataset :=
  ⟨⟨true, true, true, true, true, true, true, true, true, true⟩,
   [⟨Option.some "AB1XC", Option.some 4, Option.some "S", Option.some "B", 1, 1, 1, 1, 1, 1⟩,
    ⟨Option.some "AB1XC", Option.some 4, Option.some "S", Option.some "A", 1, 1, 1, 1, 1, 1⟩]⟩

/-- C8 counterexample: two records whose dimension values appear in the order
"B" then "A"; the grouped breakdown lists them as ["A", "B"] (sorted), not in
the first-seen order ["B", "A"] the claim asserts. -/
theorem group_rows_order_counterexample :
    (get_labour_data groupOrderC8cex Option.none Option.none Option.none).map
      (fun r => r.desc) = ["A", "B"] ∧
    groupOrderC8cex.rows.filterMap Row.desc = ["B", "A"] := by
  constructor
  · decide
  · decide

theorem group_rows_sorted_witness :
    ((get_labour_data groupOrderC8cex Option.none Option.none Option.none).map
      (fun r => r.desc)).Sorted (fun a b => strLe a b = true) ∧
    ((get_labour_data groupOrderC8cex Option.none Option.none Option.none).map
      (fun r => r.desc)).Nodup ∧
    (∀ k : String,
      k ∈ (get_labour_data groupOrderC8cex Option.none Option.none Option.none).map
        (fun r => r.desc) ↔
      ∃ r ∈ (applyFilters groupOrderC8cex Option.none Option.none Option.none).rows,
        r.desc = Option.some k) ∧
    ((groupOrderC8cex.cols.hasQty || groupOrderC8cex.cols.hasNdp ||
        groupOrderC8cex.cols.hasSell || groupOrderC8cex.cols.hasMrp) = true →
      (get_spares_data groupOrderC8cex Option.none Option.none Option.none).map
          (fun r => r.part_desc) =
        (get_labour_data groupOrderC8cex Option.none Option.none Option.none).map
          (fun r => r.desc)) ∧
    ((groupOrderC8cex.cols.hasQty || groupOrderC8cex.cols.hasNdp ||
        groupOrderC8cex.cols.hasSell || groupOrderC8cex.cols.hasMrp) = false →
      get_spares_data groupOrderC8cex Option.none Option.none Option.none = []) :=
  group_rows_sorted groupOrderC8cex Option.none Option.none Option.none rfl

lemma indicator_sum_zero (K : List String) (z : String) (hk : z ∉ K) :
    (K.map (fun k => if z = k then (1 : ℕ) else 0)).sum = 0 := by
  induction K with
  | nil => rfl
  | cons a t ih =>
      have h1 : z ≠ a := fun h => hk (h ▸ List.mem_cons_self a t)
      have h2 : z ∉ t := fun h => hk (List.mem_cons_of_mem a h)
      simp [h1, ih h2]

lemma indicator_sum_one (K : List String) (hK : K.Nodup) (z : String) (hk : z ∈ K) :
    (K.map (fun k => if z = k then (1 : ℕ) else 0)).sum = 1 := by
  induction K with
  | nil => cases hk
  | cons a t ih =>
      by_cases h : z = a
      · subst h
        have hzt : z ∉ t := (List.nodup_cons.mp hK).1
        simp [indicator_sum_zero t z hzt]
      · have hkt : z ∈ t := by
          rcases List.mem_cons.mp hk with h' | h'
          · exact absurd h' h
          · exact h'
        simp [h, ih (List.nodup_cons.mp hK).2 hkt]

lemma sum_filter_lengths (K : List String) (hK : K.Nodup) :
    ∀ l : List Row, (∀ r ∈ l, ∃ k ∈ K, r.desc = Option.some k) →
      (K.map (fun k => (l.filter (fun r => r.desc == Option.some k)).length)).sum = l.length := by
  intro l
  induction l with
  | nil => intro _; simp
  | cons r t ih =>
      intro hcov
      have hcovt : ∀ x ∈ t, ∃ k ∈ K, x.desc = Option.some k :=
        fun x hx => hcov x (List.mem_cons_of_mem r hx)
      obtain ⟨z, hzK, hz⟩ := hcov r (List.mem_cons_self r t)
      have hmap : ∀ k ∈ K,
          ((r :: t).filter (fun x => x.desc == Option.some k)).length =
            (t.filter (fun x => x.desc == Option.some k)).length + (if z = k then 1 else 0) := by
        intro k _
        rw [List.filter_cons]
        by_cases h : z = k
        · subst h
          rw [if_pos (by simp [hz])]
          simp [Nat.add_comm]
        · rw [if_neg (by simp [hz, h]), if_neg h]
          exact (Nat.add_zero _).symm
      rw [List.map_congr_left hmap, List.sum_map_add, ih hcovt,
        indicator_sum_one K hK z hzK]
      simp

/-- C9 (amended: pandas aggregates the `RO No.` column with `"count"`, which
counts non-null identifiers, so the invariant additionally needs every record of
the filtered view to carry a non-null identifier whenever the identifier column
is present): with the dimension column present, every filtered record's
dimension value non-null, and every filtered record's identifier non-null when
the identifier column exists, the per-group counts of the grouped breakdown sum
to the number of records of the filtered dataset. -/
theorem group_counts_partition (d : Dataset) (dv mo ad : Option String)
    (hdesc : d.cols.hasDesc = true)
    (hall : ∀ r ∈ (applyFilters d dv mo ad).rows, r.desc.isSome)
    (hid : d.cols.hasRO = true → ∀ r ∈ (applyFilters d dv mo ad).rows, r.ro.isSome) :
    ((get_labour_data d dv mo ad).map (fun r => r.count)).sum =
      (applyFilters d dv mo ad).rows.length := by
  unfold get_labour_data
  simp only [hdesc]
  split_ifs with h1 h2
  · rw [applyFilters_nil (isEmpty_true_eq_nil h1) dv mo ad]
    simp
  · rw [isEmpty_true_eq_nil h2]
    simp
  · rw [List.map_map]
    have hcnt : ∀ k ∈ groupKeys (applyFilters d dv mo ad).rows,
        ((fun r => r.count) ∘ labourGroupRow d.cols (applyFilters d dv mo ad).rows) k =
          ((applyFilters d dv mo ad).rows.filter (fun r => r.desc == Option.some k)).length := by
      intro k _
      simp only [Function.comp, labourGroupRow]
      by_cases hro : d.cols.hasRO
      · rw [if_pos hro]
        have hfix : ((applyFilters d dv mo ad).rows.filter
            (fun r => r.desc == Option.some k)).filter (fun r => r.ro.isSome) =
            (applyFilters d dv mo ad).rows.filter (fun r => r.desc == Option.some k) := by
          apply List.filter_eq_self.mpr
          intro x hx
          exact hid hro x (List.mem_filter.mp hx).1
        rw [hfix]
      · rw [if_neg hro]
    rw [List.map_congr_left hcnt]
    apply sum_filter_lengths _ (nodup_groupKeys _)
    intro r hr
    have hsome := hall r hr
    rcases hd : r.desc with _ | k
    · rw [hd] at hsome; simp at hsome
    · exact ⟨k, mem_groupKeys.mpr ⟨r, hr, hd⟩, rfl⟩

def countC9cex : Dataset :=
  ⟨⟨true, true, true, true, true, true, true, true, true, true⟩,
   [⟨Option.none, Option.some 4, Option.some "S", Option.some "X", 1, 1, 1, 1, 1, 1⟩]⟩

/-- C9 counterexample: a filtered dataset of one record whose dimension value is
non-null but whose identifier cell is null; the `"count"` aggregation of the
identifier column yields 0 for the group, so the counts sum to 0 while the
filtered dataset has 1 record, refuting the claim as stated. -/
theorem group_counts_counterexample :
    ((get_labour_data countC9cex Option.none Option.none Option.none).map
      (fun r => r.count)).sum = 0 ∧
    (applyFilters countC9cex Option.none Option.none Option.none).rows.length = 1 ∧
    countC9cex.cols.hasDesc = true ∧
    (∀ r ∈ (applyFilters countC9cex Option.none Option.none Option.none).rows,
      r.desc.isSome) := by
  refine ⟨by decide, by decide, rfl, by decide⟩

def countC9wit : Dataset :=
  ⟨⟨true, true, true, true, true, true, true, true, true, true⟩,
   [⟨Option.some "AB1XC", Option.some 4, Option.some "S", Option.some "X", 1, 1, 1, 1, 1, 1⟩,
    ⟨Option.some "AB1XD", Option.some 5, Option.some "T", Option.some "Y", 1, 1, 1, 1, 1, 1⟩,
    ⟨Option.some "AB1XC", Option.some 4, Option.some "S", Option.some "X", 1, 1, 1, 1, 1, 1⟩]⟩

theorem group_counts_partition_witness :
    ((get_labour_data countC9wit Option.none Option.none Option.none).map
      (fun r => r.count)).sum =
      (applyFilters countC9wit Option.none Option.none Option.none).rows.length :=
  group_counts_partition countC9wit Option.none Option.none Option.none rfl
    (by decide) (fun _ => by decide)

/- The export summary loops all follow one shape: iterate over a key list, for
   some keys build a row, append it and add its numeric fields to running
   totals.  `sumLoop` captures that shape (totals tupled). -/
def sumLoop {β γ : Type} [AddCommMonoid γ] (mk : String → Option β) (val : β → γ)
    (ms : List String) : List β × γ :=
  ms.foldl (fun acc m =>
    match mk m with
    | Option.none => acc
    | Option.some row => (acc.1 ++ [row], acc.2 + val row)) ([], 0)

lemma foldl_sumLoop {β γ : Type} [AddCommMonoid γ] (mk : String → Option β) (val : β → γ) :
    ∀ (ms : List String) (p : List β × γ),
      ms.foldl (fun acc m =>
        match mk m with
        | Option.none => acc
        | Option.some row => (acc.1 ++ [row], acc.2 + val row)) p =
      (p.1 ++ ms.filterMap mk, p.2 + ((ms.filterMap mk).map val).sum) := by
  intro ms
  induction ms with
  | nil => intro p; simp
  | cons m t ih =>
      intro p
      rcases hmk : mk m with _ | row
      · rw [List.foldl_cons]
        simp only [hmk]
        rw [ih p]
        simp [List.filterMap_cons, hmk]
      · rw [List.foldl_cons]
        simp only [hmk]
        rw [ih]
        simp [List.filterMap_cons, hmk, add_assoc]

lemma sumLoop_eq {β γ : Type} [AddCommMonoid γ] (mk : String → Option β) (val : β → γ)
    (ms : List String) :
    sumLoop mk val ms = (ms.filterMap mk, ((ms.filterMap mk).map val).sum) := by
  unfold sumLoop
  rw [foldl_sumLoop]
  simp

/- One row of the labour export's "Month-wise Summary" sheet. -/
structure LMonthRow where
  month : String
  count : ℕ
  withoutTax : ℚ
  withTax : ℚ
deriving DecidableEq

/- The body of the labour month loop: filter the (already facet-filtered) frame
   to the month; emit a row only when non-empty. -/
def labourMonthMk (f : Dataset) (m : String) : Option LMonthRow :=
  if (f.rows.filter (fun r => get_month_name r.date == m)).isEmpty then Option.none
  else Option.some
    { month := m
      count := (f.rows.filter (fun r => get_month_name r.date == m)).length
      withoutTax := if f.cols.hasDis then
          ((f.rows.filter (fun r => get_month_name r.date == m)).map Row.dis).sum else 0
      withTax := if f.cols.hasTot then
          ((f.rows.filter (fun r => get_month_name r.date == m)).map Row.tot).sum else 0 }

def labourMonthVal (r : LMonthRow) : ℕ × ℚ × ℚ := (r.count, r.withoutTax, r.withTax)

/- The emitted per-month rows (the loop `break`s immediately when the date
   column is absent). -/
def labourMonthRows (f : Dataset) : List LMonthRow :=
  if f.cols.hasDate then FINANCIAL_YEAR_ORDER.filterMap (labourMonthMk f) else []

/- The whole "Month-wise Summary" sheet: the loop of `labourMonthMk` over the
   fiscal cycle with running totals, plus a Grand Total row from the running
   totals if at least one row was emitted. -/
def labourMonthSummary (f : Dataset) : List LMonthRow :=
  if f.cols.hasDate then
    match sumLoop (labourMonthMk f) labourMonthVal FINANCIAL_YEAR_ORDER with
    | (rows, tot) =>
        if rows.isEmpty then []
        else rows ++ [{ month := "Grand Total", count := tot.1,
                        withoutTax := tot.2.1, withTax := tot.2.2 }]
  else []

lemma labourMonthVal_sum (l : List LMonthRow) :
    (l.map labourMonthVal).sum =
      ((l.map (fun r => r.count)).sum, (l.map (fun r => r.withoutTax)).sum,
       (l.map (fun r => r.withTax)).sum) := by
  induction l with
  | nil => rfl
  | cons a t ih => simp [labourMonthVal, ih, Prod.mk_add_mk]

lemma labourMonthSummary_eq (f : Dataset) :
    labourMonthSummary f =
      if (labourMonthRows f).isEmpty then []
      else labourMonthRows f ++
        [{ month := "Grand Total",
           count := ((labourMonthRows f).map (fun r => r.count)).sum,
           withoutTax := ((labourMonthRows f).map (fun r => r.withoutTax)).sum,
           withTax := ((labourMonthRows f).map (fun r => r.withTax)).sum }] := by
  unfold labourMonthSummary labourMonthRows
  by_cases hd : f.cols.hasDate
  · simp only [hd, if_true]
    rw [sumLoop_eq, labourMonthVal_sum]
  · simp [hd]

/- One row of the spares export's "Month-wise Summary" sheet. -/
structure SMonthRow where
  month : String
  qty : ℚ
  ndp : ℚ
  sell : ℚ
  mrpValue : ℚ
deriving DecidableEq

def sparesMonthMk (f : Dataset) (m : String) : Option SMonthRow :=
  if (f.rows.filter (fun r => get_month_name r.date == m)).isEmpty then Option.none
  else Option.some
    { month := m
      qty := if f.cols.hasQty then
          ((f.rows.filter (fun r => get_month_name r.date == m)).map Row.qty).sum else 0
      ndp := if f.cols.hasNdp then
          ((f.rows.filter (fun r => get_month_name r.date == m)).map Row.ndp).sum else 0
      sell := if f.cols.hasSell then
          ((f.rows.filter (fun r => get_month_name r.date == m)).map Row.sell).sum else 0
      mrpValue := if f.cols.hasQty && f.cols.hasMrp then
          ((f.rows.filter (fun r => get_month_name r.date == m)).map
            (fun r => r.qty * r.mrp)).sum else 0 }

def sparesMonthVal (r : SMonthRow) : ℚ × ℚ × ℚ × ℚ := (r.qty, r.ndp, r.sell, r.mrpValue)

def sparesMonthRows (f : Dataset) : List SMonthRow :=
  if f.cols.hasDate then FINANCIAL_YEAR_ORDER.filterMap (sparesMonthMk f) else []

def sparesMonthSummary (f : Dataset) : List SMonthRow :=
  if f.cols.hasDate then
    match sumLoop (sparesMonthMk f) sparesMonthVal FINANCIAL_YEAR_ORDER with
    | (rows, tot) =>
        if rows.isEmpty then []
        else rows ++ [{ month := "Grand Total", qty := tot.1, ndp := tot.2.1,
                        sell := tot.2.2.1, mrpValue := tot.2.2.2 }]
  else []

lemma sparesMonthVal_sum (l : List SMonthRow) :
    (l.map sparesMonthVal).sum =
      ((l.map (fun r => r.qty)).sum, (l.map (fun r => r.ndp)).sum,
       (l.map (fun r => r.sell)).sum, (l.map (fun r => r.mrpValue)).sum) := by
  induction l with
  | nil => rfl
  | cons a t ih => simp [sparesMonthVal, ih, Prod.mk_add_mk]

lemma sparesMonthSummary_eq (f : Dataset) :
    sparesMonthSummary f =
      if (sparesMonthRows f).isEmpty then []
      else sparesMonthRows f ++
        [{ month := "Grand Total",
           qty := ((sparesMonthRows f).map (fun r => r.qty)).sum,
           ndp := ((sparesMonthRows f).map (fun r => r.ndp)).sum,
           sell := ((sparesMonthRows f).map (fun r => r.sell)).sum,
           mrpValue := ((sparesMonthRows f).map (fun r => r.mrpValue)).sum }] := by
  unfold sparesMonthSummary sparesMonthRows
  by_cases hd : f.cols.hasDate
  · simp only [hd, if_true]
    rw [sumLoop_eq, sparesMonthVal_sum]
  · simp [hd]

lemma labourMonthRows_month_map (f : Dataset) (hd : f.cols.hasDate = true) :
    (labourMonthRows f).map (fun r => r.month) =
      FINANCIAL_YEAR_ORDER.filter
        (fun m => !(f.rows.filter (fun r => get_month_name r.date == m)).isEmpty) := by
  unfold labourMonthRows
  rw [if_pos hd]
  generalize FINANCIAL_YEAR_ORDER = ms
  induction ms with
  | nil => rfl
  | cons m t ih =>
      by_cases h : (f.rows.filter (fun r => get_month_name r.date == m)).isEmpty
      · have hmk : labourMonthMk f m = Option.none := by
          unfold labourMonthMk
          rw [if_pos h]
        rw [List.filterMap_cons_none hmk, List.filter_cons_of_neg (by simp [h]), ih]
      · have hmk : labourMonthMk f m = Option.some
            { month := m
              count := (f.rows.filter (fun r => get_month_name r.date == m)).length
              withoutTax := if f.cols.hasDis then
                  ((f.rows.filter (fun r => get_month_name r.date == m)).map Row.dis).sum
                else 0
              withTax := if f.cols.hasTot then
                  ((f.rows.filter (fun r => get_month_name r.date == m)).map Row.tot).sum
                else 0 } := by
          unfold labourMonthMk
          rw [if_neg h]
        rw [List.filterMap_cons_some hmk, List.map_cons,
          List.filter_cons_of_pos (by simp only [Bool.not_eq_true] at h; simp [h]), ih]

lemma sparesMonthRows_month_map (f : Dataset) (hd : f.cols.hasDate = true) :
    (sparesMonthRows f).map (fun r => r.month) =
      FINANCIAL_YEAR_ORDER.filter
        (fun m => !(f.rows.filter (fun r => get_month_name r.date == m)).isEmpty) := by
  unfold sparesMonthRows
  rw [if_pos hd]
  generalize FINANCIAL_YEAR_ORDER = ms
  induction ms with
  | nil => rfl
  | cons m t ih =>
      by_cases h : (f.rows.filter (fun r => get_month_name r.date == m)).isEmpty
      · have hmk : sparesMonthMk f m = Option.none := by
          unfold sparesMonthMk
          rw [if_pos h]
        rw [List.filterMap_cons_none hmk, List.filter_cons_of_neg (by simp [h]), ih]
      · have hmk : sparesMonthMk f m = Option.some
            { month := m
              qty := if f.cols.hasQty then
                  ((f.rows.filter (fun r => get_month_name r.date == m)).map Row.qty).sum
                else 0
              ndp := if f.cols.hasNdp then
                  ((f.rows.filter (fun r => get_month_name r.date == m)).map Row.ndp).sum
                else 0
              sell := if f.cols.hasSell then
                  ((f.rows.filter (fun r => get_month_name r.date == m)).map Row.sell).sum
                else 0
              mrpValue := if f.cols.hasQty && f.cols.hasMrp then
                  ((f.rows.filter (fun r => get_month_name r.date == m)).map
                    (fun r => r.qty * r.mrp)).sum
                else 0 } := by
          unfold sparesMonthMk
          rw [if_neg h]
        rw [List.filterMap_cons_some hmk, List.map_cons,
          List.filter_cons_of_pos (by simp only [Bool.not_eq_true] at h; simp [h]), ih]

lemma mem_labourMonthRows (f : Dataset) :
    ∀ row ∈ labourMonthRows f,
      f.rows.filter (fun r => get_month_name r.date == row.month) ≠ [] ∧
      row.count = (f.rows.filter (fun r => get_month_name r.date == row.month)).length ∧
      row.withoutTax = (if f.cols.hasDis = true then
        ((f.rows.filter (fun r => get_month_name r.date == row.month)).map Row.dis).sum
        else 0) ∧
      row.withTax = (if f.cols.hasTot = true then
        ((f.rows.filter (fun r => get_month_name r.date == row.month)).map Row.tot).sum
        else 0) := by
  intro row hrow
  unfold labourMonthRows at hrow
  by_cases hd : f.cols.hasDate
  · rw [if_pos hd] at hrow
    obtain ⟨m, _, hmk⟩ := List.mem_filterMap.mp hrow
    unfold labourMonthMk at hmk
    by_cases h : (f.rows.filter (fun r => get_month_name r.date == m)).isEmpty
    · rw [if_pos h] at hmk; cases hmk
    · rw [if_neg h] at hmk
      obtain rfl := Option.some.inj hmk
      refine ⟨fun hnil => h (by rw [hnil]; rfl), rfl, rfl, rfl⟩
  · rw [if_neg hd] at hrow
    cases hrow

lemma mem_sparesMonthRows (f : Dataset) :
    ∀ row ∈ sparesMonthRows f,
      f.rows.filter (fun r => get_month_name r.date == row.month) ≠ [] ∧
      row.qty = (if f.cols.hasQty = true then
        ((f.rows.filter (fun r => get_month_name r.date == row.month)).map Row.qty).sum
        else 0) ∧
      row.ndp = (if f.cols.hasNdp = true then
        ((f.rows.filter (fun r => get_month_name r.date == row.month)).map Row.ndp).sum
        else 0) ∧
      row.sell = (if f.cols.hasSell = true then
        ((f.rows.filter (fun r => get_month_name r.date == row.month)).map Row.sell).sum
        else 0) ∧
      row.mrpValue = (if (f.cols.hasQty && f.cols.hasMrp) = true then
        ((f.rows.filter (fun r => get_month_name r.date == row.month)).map
          (fun r => r.qty * r.mrp)).sum
        else 0) := by
  intro row hrow
  unfold sparesMonthRows at hrow
  by_cases hd : f.cols.hasDate
  · rw [if_pos hd] at hrow
    obtain ⟨m, _, hmk⟩ := List.mem_filterMap.mp hrow
    unfold sparesMonthMk at hmk
    by_cases h : (f.rows.filter (fun r => get_month_name r.date == m)).isEmpty
    · rw [if_pos h] at hmk; cases hmk
    · rw [if_neg h] at hmk
      obtain rfl := Option.some.inj hmk
      refine ⟨fun hnil => h (by rw [hnil]; rfl), rfl, rfl, rfl, rfl⟩
  · rw [if_neg hd] at hrow
    cases hrow

lemma labourMonthRows_ne_nil {f : Dataset} (h : labourMonthRows f ≠ []) :
    f.rows.isEmpty = false := by
  rcases hrows : labourMonthRows f with _ | ⟨row, rest⟩
  · exact absurd hrows h
  · have hmem : row ∈ labourMonthRows f := by rw [hrows]; exact List.mem_cons_self row rest
    obtain ⟨hne, -⟩ := mem_labourMonthRows f row hmem
    rcases hfil : f.rows.filter (fun r => get_month_name r.date == row.month) with _ | ⟨x, t⟩
    · exact absurd hfil hne
    · have : x ∈ f.rows :=
        (List.mem_filter.mp (by rw [hfil]; exact List.mem_cons_self x t)).1
      cases hr : f.rows with
      | nil => rw [hr] at this; cases this
      | cons a b => rfl

lemma sparesMonthRows_ne_nil {f : Dataset} (h : sparesMonthRows f ≠ []) :
    f.rows.isEmpty = false := by
  rcases hrows : sparesMonthRows f with _ | ⟨row, rest⟩
  · exact absurd hrows h
  · have hmem : row ∈ sparesMonthRows f := by rw [hrows]; exact List.mem_cons_self row rest
    obtain ⟨hne, -⟩ := mem_sparesMonthRows f row hmem
    rcases hfil : f.rows.filter (fun r => get_month_name r.date == row.month) with _ | ⟨x, t⟩
    · exact absurd hfil hne
    · have : x ∈ f.rows :=
        (List.mem_filter.mp (by rw [hfil]; exact List.mem_cons_self x t)).1
      cases hr : f.rows with
      | nil => rw [hr] at this; cases this
      | cons a b => rfl

lemma isEmpty_false_of_ne_nil {α : Type} {l : List α} (h : l ≠ []) : l.isEmpty = false := by
  cases l with
  | nil => exact absurd rfl h
  | cons a t => rfl

/- The "Month-wise Summary" sheet of the labour export.  `export_labour_data`
   returns four empty sheets before any summary work when the filtered frame is
   empty. -/
def export_labour_month_sheet (d : Dataset) (dv mo ad : Option String) : List LMonthRow :=
  if (applyFilters d dv mo ad).rows.isEmpty then []
  else labourMonthSummary (applyFilters d dv mo ad)

/- The "Month-wise Summary" sheet of the spares export (no early return). -/
def export_spares_month_sheet (d : Dataset) (dv mo ad : Option String) : List SMonthRow :=
  sparesMonthSummary (applyFilters d dv mo ad)

/-- C2: for every dataset and facet selection, the month summary sheet emits one
row per fiscal month, in the fixed Apr..Mar cycle order, exactly for the months
whose subset of the filtered dataset is non-empty (so never a zero row — every
emitted labour row has positive count); when at least one month row is emitted,
exactly one Grand Total row is appended whose count and monetary fields are the
sums of the corresponding fields of the emitted rows (not a recomputation over
the unfiltered dataset); when no month row is emitted no Grand Total row is
appended; this holds for both the labour and the spares exports. -/
theorem month_summary_spec (d e : Dataset) (dv mo ad : Option String) :
    (∀ row ∈ labourMonthRows (applyFilters d dv mo ad), 0 < row.count) ∧
    ((applyFilters d dv mo ad).cols.hasDate = true →
      (labourMonthRows (applyFilters d dv mo ad)).map (fun r => r.month) =
        FINANCIAL_YEAR_ORDER.filter (fun m =>
          !((applyFilters d dv mo ad).rows.filter
              (fun r => get_month_name r.date == m)).isEmpty)) ∧
    (labourMonthRows (applyFilters d dv mo ad) = [] →
      export_labour_month_sheet d dv mo ad = []) ∧
    (labourMonthRows (applyFilters d dv mo ad) ≠ [] →
      export_labour_month_sheet d dv mo ad =
        labourMonthRows (applyFilters d dv mo ad) ++
          [{ month := "Grand Total",
             count := ((labourMonthRows (applyFilters d dv mo ad)).map
               (fun r => r.count)).sum,
             withoutTax := ((labourMonthRows (applyFilters d dv mo ad)).map
               (fun r => r.withoutTax)).sum,
             withTax := ((labourMonthRows (applyFilters d dv mo ad)).map
               (fun r => r.withTax)).sum }]) ∧
    ((applyFilters e dv mo ad).cols.hasDate = true →
      (sparesMonthRows (applyFilters e dv mo ad)).map (fun r => r.month) =
        FINANCIAL_YEAR_ORDER.filter (fun m =>
          !((applyFilters e dv mo ad).rows.filter
              (fun r => get_month_name r.date == m)).isEmpty)) ∧
    (sparesMonthRows (applyFilters e dv mo ad) = [] →
      export_spares_month_sheet e dv mo ad = []) ∧
    (sparesMonthRows (applyFilters e dv mo ad) ≠ [] →
      export_spares_month_sheet e dv mo ad =
        sparesMonthRows (applyFilters e dv mo ad) ++
          [{ month := "Grand Total",
             qty := ((sparesMonthRows (applyFilters e dv mo ad)).map (fun r => r.qty)).sum,
             ndp := ((sparesMonthRows (applyFilters e dv mo ad)).map (fun r => r.ndp)).sum,
             sell := ((sparesMonthRows (applyFilters e dv mo ad)).map (fun r => r.sell)).sum,
             mrpValue := ((sparesMonthRows (applyFilters e dv mo ad)).map
               (fun r => r.mrpValue)).sum }]) := by
  refine ⟨?_, labourMonthRows_month_map _, ?_, ?_,
    sparesMonthRows_month_map _, ?_, ?_⟩
  · intro row hrow
    obtain ⟨hne, hcount, -⟩ := mem_labourMonthRows _ row hrow
    rw [hcount]
    exact List.length_pos.mpr hne
  · intro h
    unfold export_labour_month_sheet
    by_cases hfe : (applyFilters d dv mo ad).rows.isEmpty
    · rw [if_pos hfe]
    · rw [if_neg hfe, labourMonthSummary_eq, h]
      rfl
  · intro h
    unfold export_labour_month_sheet
    rw [if_neg (by simp [labourMonthRows_ne_nil h]), labourMonthSummary_eq,
      if_neg (by simp [isEmpty_false_of_ne_nil h])]
  · intro h
    unfold export_spares_month_sheet
    rw [sparesMonthSummary_eq, h]
    rfl
  · intro h
    unfold export_spares_month_sheet
    rw [sparesMonthSummary_eq, if_neg (by simp [isEmpty_false_of_ne_nil h])]

def monthsC2wit : Dataset :=
  ⟨⟨true, true, true, true, true, true, true, true, true, true⟩,
   [⟨Option.some "AB1XC", Option.some 4, Option.some "S", Option.some "D", 1, 2, 1, 1, 1, 1⟩,
    ⟨Option.some "AB1XC", Option.some 10, Option.some "S", Option.some "D", 4, 8, 1, 1, 1, 1⟩,
    ⟨Option.some "AB1XC", Option.some 4, Option.some "S", Option.some "D", 2, 4, 1, 1, 1, 1⟩]⟩

theorem month_summary_spec_witness :
    (export_labour_month_sheet monthsC2wit Option.none Option.none Option.none =
      labourMonthRows (applyFilters monthsC2wit Option.none Option.none Option.none) ++
        [{ month := "Grand Total",
           count := ((labourMonthRows
             (applyFilters monthsC2wit Option.none Option.none Option.none)).map
               (fun r => r.count)).sum,
           withoutTax := ((labourMonthRows
             (applyFilters monthsC2wit Option.none Option.none Option.none)).map
               (fun r => r.withoutTax)).sum,
           withTax := ((labourMonthRows
             (applyFilters monthsC2wit Option.none Option.none Option.none)).map
               (fun r => r.withTax)).sum }]) ∧
    (export_labour_month_sheet monthsC2wit Option.none Option.none Option.none).map
      (fun r => (r.month, r.count)) = [("Apr", 2), ("Oct", 1), ("Grand Total", 3)] ∧
    (export_spares_month_sheet monthsC2wit Option.none Option.none Option.none).map
      (fun r => r.month) = ["Apr", "Oct", "Grand Total"] :=
  ⟨(month_summary_spec monthsC2wit monthsC2wit Option.none Option.none
      Option.none).2.2.2.1 (by decide),
   by decide, by decide⟩

/- `df_div` of the export division loops: `labour_df.copy()` filtered by the
   division when the frame is non-empty and the identifier column exists. -/
def divSubset (d : Dataset) (v : String) : List Row :=
  if !d.rows.isEmpty && d.cols.hasRO then d.rows.filter (fun r => divisionOfRow r == v)
  else d.rows

/- One row of the labour export's "Division Summary" sheet. -/
structure LDivRow where
  division : String
  count : ℕ
  withoutTax : ℚ
  withTax : ℚ
deriving DecidableEq

def labourDivRow (d : Dataset) (v : String) : LDivRow :=
  { division := v
    count := (divSubset d v).length
    withoutTax := if !(divSubset d v).isEmpty && d.cols.hasDis then
        ((divSubset d v).map Row.dis).sum else 0
    withTax := if !(divSubset d v).isEmpty && d.cols.hasTot then
        ((divSubset d v).map Row.tot).sum else 0 }

def labourDivVal (r : LDivRow) : ℕ × ℚ × ℚ := (r.count, r.withoutTax, r.withTax)

/- The whole "Division Summary" sheet of the labour export: the loop over the
   unfiltered dataset's division list with running totals, plus a Grand Total
   row if any row was emitted.  Note it reads `labour_df` (the unfiltered
   dataset), never the filtered frame. -/
def labourDivSummary (d : Dataset) : List LDivRow :=
  match sumLoop (fun v => Option.some (labourDivRow d v)) labourDivVal
      (get_labour_divisions d) with
  | (rows, tot) =>
      if rows.isEmpty then []
      else rows ++ [{ division := "Grand Total", count := tot.1,
                      withoutTax := tot.2.1, withTax := tot.2.2 }]

/- One row of the spares export's "Division Summary" sheet. -/
structure SDivRow where
  division : String
  qty : ℚ
  ndp : ℚ
  sell : ℚ
  mrpValue : ℚ
deriving DecidableEq

def sparesDivRow (d : Dataset) (v : String) : SDivRow :=
  { division := v
    qty := if !(divSubset d v).isEmpty && d.cols.hasQty then
        ((divSubset d v).map Row.qty).sum else 0
    ndp := if !(divSubset d v).isEmpty && d.cols.hasNdp then
        ((divSubset d v).map Row.ndp).sum else 0
    sell := if !(divSubset d v).isEmpty && d.cols.hasSell then
        ((divSubset d v).map Row.sell).sum else 0
    mrpValue := if !(divSubset d v).isEmpty && d.cols.hasQty && d.cols.hasMrp then
        ((divSubset d v).map (fun r => r.qty * r.mrp)).sum else 0 }

def sparesDivVal (r : SDivRow) : ℚ × ℚ × ℚ × ℚ := (r.qty, r.ndp, r.sell, r.mrpValue)

def sparesDivSummary (d : Dataset) : List SDivRow :=
  match sumLoop (fun v => Option.some (sparesDivRow d v)) sparesDivVal
      (get_spares_divisions d) with
  | (rows, tot) =>
      if rows.isEmpty then []
      else rows ++ [{ division := "Grand Total", qty := tot.1, ndp := tot.2.1,
                      sell := tot.2.2.1, mrpValue := tot.2.2.2 }]

/- The "Division Summary" sheet as written by the exports: the labour export
   early-returns an empty sheet when the filtered frame is empty; the spares
   export always writes the summary of the unfiltered dataset, ignoring the
   facet selection entirely. -/
def export_labour_div_sheet (d : Dataset) (dv mo ad : Option String) : List LDivRow :=
  if (applyFilters d dv mo ad).rows.isEmpty then [] else labourDivSummary d

def export_spares_div_sheet (d : Dataset) (_dv _mo _ad : Option String) : List SDivRow :=
  sparesDivSummary d

lemma filterMap_some_map {α β : Type} (f : α → β) (l : List α) :
    l.filterMap (fun a => Option.some (f a)) = l.map f := by
  induction l with
  | nil => rfl
  | cons a t ih => simp [List.filterMap_cons, ih]

lemma labourDivVal_sum (l : List LDivRow) :
    (l.map labourDivVal).sum =
      ((l.map (fun r => r.count)).sum, (l.map (fun r => r.withoutTax)).sum,
       (l.map (fun r => r.withTax)).sum) := by
  induction l with
  | nil => rfl
  | cons a t ih => simp [labourDivVal, ih, Prod.mk_add_mk]

lemma sparesDivVal_sum (l : List SDivRow) :
    (l.map sparesDivVal).sum =
      ((l.map (fun r => r.qty)).sum, (l.map (fun r => r.ndp)).sum,
       (l.map (fun r => r.sell)).sum, (l.map (fun r => r.mrpValue)).sum) := by
  induction l with
  | nil => rfl
  | cons a t ih => simp [sparesDivVal, ih, Prod.mk_add_mk]

lemma isEmpty_map {α β : Type} (f : α → β) (l : List α) : (l.map f).isEmpty = l.isEmpty := by
  cases l <;> rfl

lemma labourDivSummary_eq (d : Dataset) :
    labourDivSummary d =
      if (get_labour_divisions d).isEmpty then []
      else (get_labour_divisions d).map (labourDivRow d) ++
        [{ division := "Grand Total",
           count := (((get_labour_divisions d).map (labourDivRow d)).map
             (fun r => r.count)).sum,
           withoutTax := (((get_labour_divisions d).map (labourDivRow d)).map
             (fun r => r.withoutTax)).sum,
           withTax := (((get_labour_divisions d).map (labourDivRow d)).map
             (fun r => r.withTax)).sum }] := by
  unfold labourDivSummary
  rw [sumLoop_eq, filterMap_some_map, labourDivVal_sum]
  show (if ((get_labour_divisions d).map (labourDivRow d)).isEmpty = true then _ else _) = _
  rw [isEmpty_map]

lemma sparesDivSummary_eq (d : Dataset) :
    sparesDivSummary d =
      if (get_spares_divisions d).isEmpty then []
      else (get_spares_divisions d).map (sparesDivRow d) ++
        [{ division := "Grand Total",
           qty := (((get_spares_divisions d).map (sparesDivRow d)).map
             (fun r => r.qty)).sum,
           ndp := (((get_spares_divisions d).map (sparesDivRow d)).map
             (fun r => r.ndp)).sum,
           sell := (((get_spares_divisions d).map (sparesDivRow d)).map
             (fun r => r.sell)).sum,
           mrpValue := (((get_spares_divisions d).map (sparesDivRow d)).map
             (fun r => r.mrpValue)).sum }] := by
  unfold sparesDivSummary
  rw [sumLoop_eq, filterMap_some_map, sparesDivVal_sum]
  show (if ((get_spares_divisions d).map (sparesDivRow d)).isEmpty = true then _ else _) = _
  rw [isEmpty_map]

lemma spares_divisions_eq_labour : get_spares_divisions = get_labour_divisions := rfl

lemma mem_labour_divisions {d : Dataset} {v : String} (h : v ∈ get_labour_divisions d) :
    d.rows.isEmpty = false ∧ d.cols.hasRO = true := by
  unfold get_labour_divisions at h
  by_cases hc : (d.rows.isEmpty || !d.cols.hasRO) = true
  · rw [if_pos hc] at h
    cases h
  · simp only [Bool.or_eq_true, Bool.not_eq_true', not_or] at hc
    refine ⟨Bool.not_eq_true _ |>.mp hc.1, ?_⟩
    cases hb : d.cols.hasRO with
    | false => exact absurd hb hc.2
    | true => rfl

lemma labourDivRow_char {d : Dataset} {v : String} (h : v ∈ get_labour_divisions d) :
    labourDivRow d v =
      { division := v
        count := (d.rows.filter (fun r => divisionOfRow r == v)).length
        withoutTax := if d.cols.hasDis = true then
            ((d.rows.filter (fun r => divisionOfRow r == v)).map Row.dis).sum else 0
        withTax := if d.cols.hasTot = true then
            ((d.rows.filter (fun r => divisionOfRow r == v)).map Row.tot).sum else 0 } := by
  obtain ⟨hrows, hro⟩ := mem_labour_divisions h
  have hsub : divSubset d v = d.rows.filter (fun r => divisionOfRow r == v) := by
    unfold divSubset
    rw [if_pos (by simp [hrows, hro])]
  unfold labourDivRow
  rw [hsub]
  by_cases hf : (d.rows.filter (fun r => divisionOfRow r == v)).isEmpty
  · rw [isEmpty_true_eq_nil hf]
    simp
  · have hf' := Bool.not_eq_true _ |>.mp hf
    simp [hf']

lemma sparesDivRow_char {d : Dataset} {v : String} (h : v ∈ get_spares_divisions d) :
    sparesDivRow d v =
      { division := v
        qty := if d.cols.hasQty = true then
            ((d.rows.filter (fun r => divisionOfRow r == v)).map Row.qty).sum else 0
        ndp := if d.cols.hasNdp = true then
            ((d.rows.filter (fun r => divisionOfRow r == v)).map Row.ndp).sum else 0
        sell := if d.cols.hasSell = true then
            ((d.rows.filter (fun r => divisionOfRow r == v)).map Row.sell).sum else 0
        mrpValue := if (d.cols.hasQty && d.cols.hasMrp) = true then
            ((d.rows.filter (fun r => divisionOfRow r == v)).map
              (fun r => r.qty * r.mrp)).sum else 0 } := by
  rw [spares_divisions_eq_labour] at h
  obtain ⟨hrows, hro⟩ := mem_labour_divisions h
  have hsub : divSubset d v = d.rows.filter (fun r => divisionOfRow r == v) := by
    unfold divSubset
    rw [if_pos (by simp [hrows, hro])]
  unfold sparesDivRow
  rw [hsub]
  by_cases hf : (d.rows.filter (fun r => divisionOfRow r == v)).isEmpty
  · rw [isEmpty_true_eq_nil hf]
    simp
  · have hf' := Bool.not_eq_true _ |>.mp hf
    simp [hf', Bool.and_assoc]

/-- C1 (amended: the labour export early-returns four empty sheets when the
filtered view is empty, so its Division Summary is the full breakdown only when
the filtered dataset is non-empty; the spares export has no such early return):
whenever the (labour) filtered dataset is non-empty, the Division Summary sheet
equals the summary computed from the unfiltered dataset alone — one row per
division of the unfiltered dataset's division option set, whose count and
monetary sums are recomputed over that division's subset of the original
unfiltered dataset, followed by a Grand Total row when the option set is
non-empty — independent of the active month or advisor filter; the spares
Division Summary has this form for every facet selection unconditionally. -/
theorem division_summary_unfiltered (d e : Dataset) (dv mo ad : Option String)
    (h : (applyFilters d dv mo ad).rows ≠ []) :
    export_labour_div_sheet d dv mo ad = labourDivSummary d ∧
    labourDivSummary d =
      (if (get_labour_divisions d).isEmpty then []
       else (get_labour_divisions d).map (labourDivRow d) ++
        [{ division := "Grand Total",
           count := (((get_labour_divisions d).map (labourDivRow d)).map
             (fun r => r.count)).sum,
           withoutTax := (((get_labour_divisions d).map (labourDivRow d)).map
             (fun r => r.withoutTax)).sum,
           withTax := (((get_labour_divisions d).map (labourDivRow d)).map
             (fun r => r.withTax)).sum }]) ∧
    (∀ v ∈ get_labour_divisions d, labourDivRow d v =
      { division := v
        count := (d.rows.filter (fun r => divisionOfRow r == v)).length
        withoutTax := if d.cols.hasDis = true then
            ((d.rows.filter (fun r => divisionOfRow r == v)).map Row.dis).sum else 0
        withTax := if d.cols.hasTot = true then
            ((d.rows.filter (fun r => divisionOfRow r == v)).map Row.tot).sum else 0 }) ∧
    export_spares_div_sheet e dv mo ad = sparesDivSummary e ∧
    sparesDivSummary e =
      (if (get_spares_divisions e).isEmpty then []
       else (get_spares_divisions e).map (sparesDivRow e) ++
        [{ division := "Grand Total",
           qty := (((get_spares_divisions e).map (sparesDivRow e)).map
             (fun r => r.qty)).sum,
           ndp := (((get_spares_divisions e).map (sparesDivRow e)).map
             (fun r => r.ndp)).sum,
           sell := (((get_spares_divisions e).map (sparesDivRow e)).map
             (fun r => r.sell)).sum,
           mrpValue := (((get_spares_divisions e).map (sparesDivRow e)).map
             (fun r => r.mrpValue)).sum }]) ∧
    (∀ v ∈ get_spares_divisions e, sparesDivRow e v =
      { division := v
        qty := if e.cols.hasQty = true then
            ((e.rows.filter (fun r => divisionOfRow r == v)).map Row.qty).sum else 0
        ndp := if e.cols.hasNdp = true then
            ((e.rows.filter (fun r => divisionOfRow r == v)).map Row.ndp).sum else 0
        sell := if e.cols.hasSell = true then
            ((e.rows.filter (fun r => divisionOfRow r == v)).map Row.sell).sum else 0
        mrpValue := if (e.cols.hasQty && e.cols.hasMrp) = true then
            ((e.rows.filter (fun r => divisionOfRow r == v)).map
              (fun r => r.qty * r.mrp)).sum else 0 }) := by
  refine ⟨?_, labourDivSummary_eq d, fun v hv => labourDivRow_char hv, rfl,
    sparesDivSummary_eq e, fun v hv => sparesDivRow_char hv⟩
  unfold export_labour_div_sheet
  rw [if_neg (by simp [isEmpty_false_of_ne_nil h])]

def divC1cex : Dataset :=
  ⟨⟨true, true, true, true, true, true, true, true, true, true⟩,
   [⟨Option.some "AB1XC", Option.some 4, Option.some "S", Option.some "D", 1, 1, 1, 1, 1, 1⟩]⟩

/-- C1 counterexample: one labour record in April with division CITY; selecting
month "May" empties the filtered view, and the labour export then writes an
empty Division Summary sheet even though the unfiltered dataset's division
option set is ["CITY"] — the sheet does not contain one row per division plus a
Grand Total row, refuting the claim as universally stated. -/
theorem division_summary_counterexample :
    export_labour_div_sheet divC1cex Option.none (Option.some "May") Option.none = [] ∧
    get_labour_divisions divC1cex = ["CITY"] := by
  constructor
  · decide
  · decide

def divC1wit : Dataset :=
  ⟨⟨true, true, true, true, true, true, true, true, true, true⟩,
   [⟨Option.some "AB1XC", Option.some 4, Option.some "S", Option.some "D", 1, 1, 1, 1, 1, 1⟩,
    ⟨Option.some "AB1XA", Option.some 10, Option.some "T", Option.some "E", 1, 1, 1, 1, 1, 1⟩]⟩

theorem division_summary_unfiltered_witness :
    export_labour_div_sheet divC1wit Option.none Option.none Option.none =
      labourDivSummary divC1wit ∧
    (export_labour_div_sheet divC1wit Option.none Option.none Option.none).map
      (fun r => (r.division, r.count)) = [("CITY", 1), ("HO", 1), ("Grand Total", 2)] :=
  ⟨(division_summary_unfiltered divC1wit divC1wit Option.none Option.none Option.none
      (by decide)).1,
   by decide⟩

/- The "Labour Description" sheet of the labour export: after the empty early
   return, the same groupby/aggregation as `get_labour_data`, renamed to
   Count / Without Tax / With Tax. -/
def export_labour_desc_sheet (d : Dataset) (dv mo ad : Option String) : List LabourRow :=
  if (applyFilters d dv mo ad).rows.isEmpty then []
  else if d.cols.hasDesc then
    (groupKeys (applyFilters d dv mo ad).rows).map
      (labourGroupRow d.cols (applyFilters d dv mo ad).rows)
  else []

/- The per-cell values of the "Part Desc Wise" sheet after the
   `pd.to_numeric(...).fillna(0.0)` / missing-column-to-0.0 normalisation. -/
def sheetQty (c : Cols) (r : Row) : ℚ := if c.hasQty then r.qty else 0

def sheetNdp (c : Cols) (r : Row) : ℚ := if c.hasNdp then r.ndp else 0

def sheetSell (c : Cols) (r : Row) : ℚ := if c.hasSell then r.sell else 0

def sheetMrp (c : Cols) (r : Row) : ℚ := if c.hasMrp then r.mrp else 0

/- One row of the spares export's "Part Desc Wise" sheet.  Unlike
   `get_spares_data`, its MRP Value is the per-row product `qty * mrp` computed
   before grouping and then summed per group. -/
structure SPartRow where
  part_desc : String
  spareCount : ℚ
  ndpValue : ℚ
  sellingPrice : ℚ
  mrpValue : ℚ
deriving DecidableEq

def sparesPartRow (c : Cols) (rows : List Row) (k : String) : SPartRow :=
  { part_desc := k
    spareCount := ((rows.filter (fun r => r.desc == Option.some k)).map (sheetQty c)).sum
    ndpValue := ((rows.filter (fun r => r.desc == Option.some k)).map (sheetNdp c)).sum
    sellingPrice := ((rows.filter (fun r => r.desc == Option.some k)).map (sheetSell c)).sum
    mrpValue := ((rows.filter (fun r => r.desc == Option.some k)).map
      (fun r => sheetQty c r * sheetMrp c r)).sum }

def export_spares_part_sheet (d : Dataset) (dv mo ad : Option String) : List SPartRow :=
  if (applyFilters d dv mo ad).rows.isEmpty then []
  else if d.cols.hasDesc then
    (groupKeys (applyFilters d dv mo ad).rows).map
      (sparesPartRow d.cols (applyFilters d dv mo ad).rows)
  else []

lemma sheet_sum_qty (c : Cols) (g : List Row) :
    (g.map (sheetQty c)).sum = if c.hasQty = true then (g.map Row.qty).sum else 0 := by
  unfold sheetQty
  by_cases h : c.hasQty <;> simp [h]

lemma sheet_sum_ndp (c : Cols) (g : List Row) :
    (g.map (sheetNdp c)).sum = if c.hasNdp = true then (g.map Row.ndp).sum else 0 := by
  unfold sheetNdp
  by_cases h : c.hasNdp <;> simp [h]

lemma sheet_sum_sell (c : Cols) (g : List Row) :
    (g.map (sheetSell c)).sum = if c.hasSell = true then (g.map Row.sell).sum else 0 := by
  unfold sheetSell
  by_cases h : c.hasSell <;> simp [h]

/-- C7 (amended: for the spares dataset the exported Part Desc Wise sheet's MRP
Value is the per-group sum of per-record quantity × per-unit MRP products — the
sum-of-products — whereas the rows/data operation reports quantity-sum ×
MRP-mean, so the two MRP aggregates differ; and when all four spares numeric
columns are absent the rows/data operation returns [] via the empty
aggregation-dict error path while the export sheet, which creates the missing
columns as 0.0, still emits one zero row per group; the remaining assertions
hold): the exported Labour Description sheet is exactly the labour grouped
breakdown of the rows/data operation (same groups, counts and sums, only
relabelled); whenever at least one spares numeric column is present, the
exported Part Desc Wise sheet has the same groups in the same order with the
same quantity, NDP and selling-price sums as the spares rows/data operation;
its MRP Value is always the filtered group's sum of quantity × MRP; both
sheets are empty when the dimension column is absent. -/
theorem dimension_sheet_refinement (d : Dataset) (dv mo ad : Option String) :
    export_labour_desc_sheet d dv mo ad = get_labour_data d dv mo ad ∧
    ((d.cols.hasQty || d.cols.hasNdp || d.cols.hasSell || d.cols.hasMrp) = true →
      (export_spares_part_sheet d dv mo ad).map
          (fun r => (r.part_desc, r.spareCount, r.ndpValue, r.sellingPrice)) =
        (get_spares_data d dv mo ad).map
          (fun r => (r.part_desc, r.final_qty, r.ndp_price_qty, r.selling_price_total))) ∧
    ((d.cols.hasQty || d.cols.hasNdp || d.cols.hasSell || d.cols.hasMrp) = false →
      get_spares_data d dv mo ad = []) ∧
    (∀ row ∈ export_spares_part_sheet d dv mo ad,
      row.mrpValue = (((applyFilters d dv mo ad).rows.filter
          (fun r => r.desc == Option.some row.part_desc)).map
        (fun r => sheetQty d.cols r * sheetMrp d.cols r)).sum) ∧
    (d.cols.hasDesc = false →
      export_labour_desc_sheet d dv mo ad = [] ∧
      export_spares_part_sheet d dv mo ad = []) := by
  refine ⟨?_, ?_, spares_data_no_numeric d dv mo ad, ?_, ?_⟩
  · unfold export_labour_desc_sheet get_labour_data
    by_cases h1 : d.rows.isEmpty
    · rw [if_pos h1, applyFilters_nil (isEmpty_true_eq_nil h1) dv mo ad]
      rfl
    · rw [if_neg h1]
  · intro hnum
    unfold export_spares_part_sheet get_spares_data
    by_cases h1 : d.rows.isEmpty
    · rw [if_pos h1, applyFilters_nil (isEmpty_true_eq_nil h1) dv mo ad]
      rfl
    · rw [if_neg h1]
      by_cases h2 : (applyFilters d dv mo ad).rows.isEmpty
      · rw [if_pos h2, if_pos h2]
        rfl
      · rw [if_neg h2, if_neg h2]
        by_cases h3 : d.cols.hasDesc
        · rw [if_pos h3, if_pos h3, if_pos hnum, List.map_map, List.map_map]
          refine List.map_congr_left ?_
          intro k _
          show ((sparesPartRow d.cols (applyFilters d dv mo ad).rows k).part_desc, _, _, _) =
            ((sparesGroupRow d.cols (applyFilters d dv mo ad).rows k).part_desc, _, _, _)
          unfold sparesPartRow sparesGroupRow
          simp only [sheet_sum_qty, sheet_sum_ndp, sheet_sum_sell]
        · rw [if_neg h3, if_neg h3]
          rfl
  · intro row hrow
    unfold export_spares_part_sheet at hrow
    split_ifs at hrow with h1 h2
    · simp at hrow
    · obtain ⟨k, hk, hrk⟩ := List.mem_map.mp hrow
      have hdesc : row.part_desc = k := by rw [← hrk]; rfl
      rw [hdesc, ← hrk]
      rfl
    · simp at hrow
  · intro hdesc
    constructor
    · unfold export_labour_desc_sheet
      by_cases h1 : (applyFilters d dv mo ad).rows.isEmpty
      · rw [if_pos h1]
      · rw [if_neg h1, if_neg (by simp [hdesc])]
    · unfold export_spares_part_sheet
      by_cases h1 : (applyFilters d dv mo ad).rows.isEmpty
      · rw [if_pos h1]
      · rw [if_neg h1, if_neg (by simp [hdesc])]

def partC7cex : Dataset :=
  ⟨⟨true, true, true, true, true, true, true, true, true, true⟩,
   [⟨Option.some "AB1XC", Option.some 4, Option.some "S", Option.some "P", 0, 0, 1, 0, 0, 10⟩,
    ⟨Option.some "AB1XC", Option.some 4, Option.some "S", Option.some "P", 0, 0, 2, 0, 0, 20⟩]⟩

/-- C7 counterexample: two filtered records in one group with quantities 1, 2
and per-unit MRP 10, 20; the exported Part Desc Wise sheet reports MRP Value
1×10 + 2×20 = 50 (sum of products) while the rows/data operation reports
(1+2) × mean(10,20) = 45, so the exported dimension sheet does not carry the
same MRP aggregate value as the rows/data operation, refuting the claim as
stated. -/
theorem dimension_sheet_counterexample :
    (export_spares_part_sheet partC7cex Option.none Option.none Option.none).map
      (fun r => r.mrpValue) = [50] ∧
    (get_spares_data partC7cex Option.none Option.none Option.none).map
      (fun r => r.mrp_total) = [45] := by
  constructor
  · have h : (export_spares_part_sheet partC7cex Option.none Option.none Option.none).map
        (fun r => r.mrpValue) =
        [(sparesPartRow partC7cex.cols partC7cex.rows "P").mrpValue] := rfl
    rw [h]
    have hmap : (partC7cex.rows.filter (fun r => r.desc == Option.some "P")).map
        (fun r => sheetQty partC7cex.cols r * sheetMrp partC7cex.cols r) =
        [(1 : ℚ) * 10, (2 : ℚ) * 20] := rfl
    simp only [sparesPartRow, hmap]
    norm_num [List.sum_cons, List.sum_nil]
  · have h : (get_spares_data partC7cex Option.none Option.none Option.none).map
        (fun r => r.mrp_total) =
        [(sparesGroupRow partC7cex.cols partC7cex.rows "P").mrp_total] := rfl
    rw [h]
    have hfil : partC7cex.rows.filter (fun r => r.desc == Option.some "P") =
        partC7cex.rows := rfl
    simp only [sparesGroupRow, show partC7cex.cols.hasMrp = true from rfl,
      show partC7cex.cols.hasQty = true from rfl, if_true, hfil]
    have hq : partC7cex.rows.map Row.qty = [1, 2] := rfl
    have hm : partC7cex.rows.map Row.mrp = [10, 20] := rfl
    have hlen : partC7cex.rows.length = 2 := rfl
    rw [hq, hm, hlen]
    norm_num [List.sum_cons, List.sum_nil]

theorem dimension_sheet_refinement_witness :
    (export_labour_desc_sheet partC7cex Option.none Option.none Option.none =
      get_labour_data partC7cex Option.none Option.none Option.none) ∧
    ((export_spares_part_sheet partC7cex Option.none Option.none Option.none).map
        (fun r => (r.part_desc, r.spareCount, r.ndpValue, r.sellingPrice)) =
      (get_spares_data partC7cex Option.none Option.none Option.none).map
        (fun r => (r.part_desc, r.final_qty, r.ndp_price_qty, r.selling_price_total))) :=
  ⟨(dimension_sheet_refinement partC7cex Option.none Option.none Option.none).1,
   (dimension_sheet_refinement partC7cex Option.none Option.none Option.none).2.1 rfl⟩
